import Mathlib

/-!
Verification of the message-interpretation layer of the go-imap server
(`imapserver/message.go` and `imapserver/imapmemserver/message.go`).

Messages, headers and bodies are shallowly embedded.  Raw bytes are
modelled as `List Char`.  The MIME primitives library (go-message) is an
external collaborator of this layer: its parse results are modelled as
data carried by the embedding (a `Body` constructor carries the list of
multipart children that the multipart reader would yield, and the nested
header/body pair that `ReadHeader` on a `message/rfc822` body would
yield), and, for the search evaluator, the header parser and date parser
are explicit function parameters.
-/

set_option linter.unusedVariables false

namespace GoImap

/-! ## Bytes and strings -/

abbrev Str := List Char

abbrev Bytes := List Char

/-- ASCII-style lower-casing of a byte string (`strings.ToLower` /
`bytes.ToLower` on the data this layer compares). -/
def lower (s : Str) : Str := s.map Char.toLower

/-- `strings.HasPrefix pre s` -/
def hasPrefixL : Str → Str → Bool
  | [], _ => true
  | _ :: _, [] => false
  | c :: cs, d :: ds => c == d && hasPrefixL cs ds

/-- `bytes.Contains hay pat` (substring test). -/
def containsSub : Str → Str → Bool
  | [], pat => pat.isEmpty
  | c :: rest, pat => hasPrefixL pat (c :: rest) || containsSub rest pat

/-! ## Headers -/

/-- One header field. -/
structure Field where
  key : Str
  value : Str

/-- A parsed header: the ordered list of its fields. -/
abbrev Header := List Field

/-- `Header.Get k`: value of the first field whose name matches
case-insensitively, or the empty string when there is none. -/
def headerGet (h : Header) (k : Str) : Str :=
  match h.find? (fun f => lower f.key == lower k) with
  | Option.some f => f.value
  | Option.none => []

/-- `Header.Has k` (case-insensitive field-name comparison). -/
def hasField (h : Header) (k : Str) : Bool :=
  h.any (fun f => lower f.key == lower k)

/-- `Header.Values k`: all values of fields whose name matches. -/
def headerValues (h : Header) (k : Str) : List Str :=
  (h.filter (fun f => lower f.key == lower k)).map (fun f => f.value)

def ctKey : Str := "Content-Type".toList

def defaultType : Str := "text/plain".toList

def mpPre : Str := "multipart/".toList

def msgRfc : Str := "message/rfc822".toList

def msgGlobal : Str := "message/global".toList

def dgType : Str := "multipart/digest".toList

def takeUntilSemi (l : Str) : Str := l.takeWhile (fun c => !(c == ';'))

def trimSpaces (l : Str) : Str :=
  ((l.dropWhile (fun c => c == ' ')).reverse.dropWhile (fun c => c == ' ')).reverse

/-- `gomessage.Header.ContentType`: the media type of the header's
Content-Type field (the part before any parameters, trimmed and
lower-cased), defaulting to `text/plain` when the field is absent or
empty. -/
def mediaTypeOf (h : Header) : Str :=
  let v := headerGet h ctKey
  if v.isEmpty then defaultType
  else lower (trimSpaces (takeUntilSemi v))

/-! ## Message bodies

A `Body` carries the raw bytes that `io.Copy` would stream out of it,
together with the parse results of the external MIME library:
`multi` carries the children the multipart reader yields before it
errors or ends (so a malformed boundary is a shorter — possibly empty —
children list), and `nested` carries the header/body pair `ReadHeader`
yields on a `message/rfc822`-style body.  `ReadHeader` applied to a
body that is not `nested` is modelled as producing an empty header and
leaving the stream unchanged. -/

inductive Body where
  | simple (raw : Bytes)
  | multi (children : List (Header × Body)) (raw : Bytes)
  | nested (inner : Header × Body) (raw : Bytes)

/-- Raw bytes of a body (`io.Copy`). -/
def bodyRaw : Body → Bytes
  | Body.simple raw => raw
  | Body.multi _ raw => raw
  | Body.nested _ raw => raw

/-- Children that the multipart reader yields for this body. -/
def bodyParts : Body → List (Header × Body)
  | Body.multi children _ => children
  | _ => []

/-- `textproto.ReadHeader` on a body stream: for a nested-message body,
its parsed inner header and remaining stream; a read error is modelled
by the `nested` field carrying an empty header. -/
def readHeaderFromBody : Body → Header × Body
  | Body.nested inner _ => inner
  | b => ([], b)

/-- `openMessagePart` (imapserver/message.go:138-150): if the effective
media type (with the multipart/digest default rule) is message/rfc822 or
message/global, read the nested message's header off the body. -/
def openMessagePart (h : Header) (b : Body) (pmt : Str) : Header × Body :=
  let mt := mediaTypeOf h
  let mtEff := if !(hasField h ctKey) && pmt == dgType then msgRfc else mt
  if mtEff == msgRfc || mtEff == msgGlobal then readHeaderFromBody b
  else (h, b)

/-! ## Body-section extraction (`ExtractBodySection`) -/

/-- `imap.PartSpecifier`. -/
inductive PartSpecifier where
  | none
  | header
  | text
  | mime

/-- `imap.FetchItemBodySection`.  `byteRange` models the `Partial`
field (offset and size of a partial fetch, non-negative per the
protocol parser). -/
structure FetchItemBodySection where
  part : List Int
  specifier : PartSpecifier
  headerFields : List Str
  headerFieldsNot : List Str
  byteRange : Option (Nat × Nat)

/-- Lines 36-38: for a non-multipart top-level message a leading part
number 1 refers to the message itself and is dropped. -/
def effectivePath (h : Header) (p : List Int) : List Int :=
  if !(hasPrefixL mpPre (mediaTypeOf h)) && !p.isEmpty && (p.headD 0 == 1)
  then p.tail else p

/-- Selection of the `n`-th (1-based) multipart child, `none` when the
reader errors out before the `n`-th part (fewer parts, malformed
framing) or when `n < 1` (lines 56-74). -/
def selectPart (children : List (Header × Body)) (n : Int) : Option (Header × Body) :=
  if n < 1 then Option.none
  else children.get? (n - 1).toNat

/-- The part-path resolution loop (lines 41-75), threading the parent
media type for the multipart/digest default rule. -/
def resolveLoop : Str → Header → Body → List Int → Option (Str × Header × Body)
  | pmt, h, b, [] => Option.some (pmt, h, b)
  | pmt, h, b, partNum :: rest =>
    let hb := openMessagePart h b pmt
    let mt := mediaTypeOf hb.1
    if hasPrefixL mpPre mt then
      match selectPart (bodyParts hb.2) partNum with
      | Option.none => Option.none
      | Option.some child => resolveLoop mt child.1 child.2 rest
    else if partNum == 1 then
      resolveLoop pmt hb.1 hb.2 rest
    else Option.none

/-- Header-field filtering (lines 85-98): when an inclusion list is
present keep only listed names, then drop all excluded names
(case-insensitive). -/
def filterHeader (keep drop : List Str) (h : Header) : Header :=
  let h1 := if keep.isEmpty then h
    else h.filter (fun f => (keep.map lower).contains (lower f.key))
  h1.filter (fun f => !((drop.map lower).contains (lower f.key)))

/-- Whether the serialization step writes the header (lines 103-109). -/
def writeHeaderFlag (item : FetchItemBodySection) : Bool :=
  match item.specifier with
  | PartSpecifier.none => item.part.isEmpty
  | PartSpecifier.text => false
  | _ => true

/-- Whether the serialization step writes the body (lines 116-121). -/
def writeBodyFlag (item : FetchItemBodySection) : Bool :=
  match item.specifier with
  | PartSpecifier.none => true
  | PartSpecifier.text => true
  | _ => false

def crlf : Bytes := ['\r', '\n']

/-- `textproto.WriteHeader`: each field on its own line, then the blank
line separating header from body. -/
def serializeHeader (h : Header) : Bytes :=
  (h.foldr (fun f acc => f.key ++ (": ".toList) ++ f.value ++ crlf ++ acc) []) ++ crlf

/-- The partial-range clamp (lines 123-135): `nil` when the offset is
past the end, truncation when offset+size is past the end. -/
def clampRange (range : Option (Nat × Nat)) (b : Bytes) : Option Bytes :=
  match range with
  | Option.none => Option.some b
  | Option.some (off, size) =>
    if off > b.length then Option.none
    else
      let stop := if off + size > b.length then b.length else off + size
      Option.some ((b.take stop).drop off)

/-- `ExtractBodySection` (imapserver/message.go:19-136).  The input is
`none` when the top-level header is unreadable. -/
def ExtractBodySection (msg : Option (Header × Body)) (item : FetchItemBodySection) :
    Option Bytes :=
  match msg with
  | Option.none => Option.none
  | Option.some (h0, b0) =>
    match resolveLoop [] h0 b0 (effectivePath h0 item.part) with
    | Option.none => Option.none
    | Option.some (pmt, h1, b1) =>
      let hb :=
        if !item.part.isEmpty then
          match item.specifier with
          | PartSpecifier.header => openMessagePart h1 b1 pmt
          | PartSpecifier.text => openMessagePart h1 b1 pmt
          | _ => (h1, b1)
        else (h1, b1)
      let h2 := filterHeader item.headerFields item.headerFieldsNot hb.1
      let out := (if writeHeaderFlag item then serializeHeader h2 else []) ++
                 (if writeBodyFlag item then bodyRaw hb.2 else [])
      clampRange item.byteRange out

/-! ## Time (`time.Time`)

Go's `time.Time` is modelled by its wall-clock components plus a zone
offset (seconds east of UTC); the absolute instant is derived from them
with a proleptic-Gregorian day count, which is what `Before` and
`IsZero` compare. -/

structure GoTime where
  year : Int
  month : Int
  day : Int
  hour : Int
  minute : Int
  sec : Int
  nsec : Int
  off : Int

/-- Days since 1970-01-01 of a proleptic-Gregorian civil date. -/
def daysFromCivil (y m d : Int) : Int :=
  let y1 := if m ≤ 2 then y - 1 else y
  let era := Int.fdiv y1 400
  let yoe := y1 - era * 400
  let mm := if m > 2 then m - 3 else m + 9
  let doy := Int.fdiv (153 * mm + 2) 5 + d - 1
  let doe := yoe * 365 + Int.fdiv yoe 4 - Int.fdiv yoe 100 + doy
  era * 146097 + doe - 719468

/-- Absolute second count of the instant a `GoTime` denotes. -/
def timeAbs (t : GoTime) : Int :=
  daysFromCivil t.year t.month t.day * 86400 +
    t.hour * 3600 + t.minute * 60 + t.sec - t.off

/-- `time.Time.Before`: instant comparison. -/
def timeLt (t u : GoTime) : Bool :=
  timeAbs t < timeAbs u || (timeAbs t == timeAbs u && t.nsec < u.nsec)

/-- The zero `time.Time`: January 1, year 1, 00:00:00 UTC. -/
def zeroTime : GoTime := ⟨1, 1, 1, 0, 0, 0, 0, 0⟩

/-- `time.Time.IsZero`: whether the instant is the zero instant. -/
def isZero (t : GoTime) : Bool :=
  timeAbs t == timeAbs zeroTime && t.nsec == 0

/-- Line 199: `time.Date(t.Year(), t.Month(), t.Day(), 0, 0, 0, 0, time.UTC)` —
the calendar date of `t` re-anchored at midnight UTC. -/
def dateAnchor (t : GoTime) : GoTime :=
  ⟨t.year, t.month, t.day, 0, 0, 0, 0, 0⟩

/-- `matchDate` (imapmemserver/message.go:196-208). -/
def matchDate (t since before : GoTime) : Bool :=
  if !(isZero since) && timeLt (dateAnchor t) since then false
  else if !(isZero before) && !(timeLt (dateAnchor t) before) then false
  else true

/-! ## Flags and STORE -/

/-- `canonicalFlag` (lines 261-263): lower-casing. -/
def canonicalFlag (f : Str) : Str := lower f

/-- `imap.StoreFlagsOp`. -/
inductive StoreOp where
  | set
  | add
  | del

/-- `(*message).store` (lines 88-104): `set` rebuilds the flag set from
scratch and falls through to the `add` loop; `add` inserts each
canonicalized flag; `del` deletes each canonicalized flag. -/
def store (flags : Finset Str) (op : StoreOp) (fs : List Str) : Finset Str :=
  match op with
  | StoreOp.set => fs.foldl (fun acc f => insert (canonicalFlag f) acc) ∅
  | StoreOp.add => fs.foldl (fun acc f => insert (canonicalFlag f) acc) flags
  | StoreOp.del => fs.foldl (fun acc f => acc.erase (canonicalFlag f)) flags

/-! ## Search -/

/-- `matchBytes` (lines 210-221). -/
def matchBytes (buf : Str) (pats : List Str) : Bool :=
  if pats.isEmpty then true
  else
    let lb := lower buf
    pats.all (fun s => containsSub lb (lower s))

/-- The in-memory `message` record: immutable UID, raw bytes and
internal date, plus the mutable flag set. -/
structure Msg where
  uid : Nat
  buf : Str
  t : GoTime
  flags : Finset Str

/-- The non-recursive fields of `imap.SearchCriteria`.  Sequence-number
and UID sets are modelled by their membership functions
(`SeqSet.Contains` / `UIDSet.Contains`). -/
structure SCLeaf where
  seqNum : List (Nat → Bool)
  uid : List (Nat → Bool)
  since : GoTime
  before : GoTime
  sentSince : GoTime
  sentBefore : GoTime
  header : List (Str × Str)
  body : List Str
  text : List Str
  flag : List Str
  notFlag : List Str
  larger : Int
  smaller : Int

/-- `imap.SearchCriteria`: leaf fields plus NOT children and OR pairs. -/
inductive SC where
  | mk (leaf : SCLeaf) (nots : List SC) (ors : List (SC × SC))

def SC.leaf : SC → SCLeaf
  | SC.mk l _ _ => l

def SC.nots : SC → List SC
  | SC.mk _ n _ => n

def SC.ors : SC → List (SC × SC)
  | SC.mk _ _ o => o

/-- The leaf conjuncts of `(*message).search` (lines 106-180), in
source order.  `pm` is the external `textproto.ReadHeader` applied to
the message bytes (its error is ignored at line 144, so it totally
yields a header and the remaining body bytes); `pd` is the external
`mail.Header.Date` parser (`none` on parse failure). -/
def searchLeaf (pm : Str → Header × Str) (pd : Header → Option GoTime)
    (m : Msg) (sn : Nat) (c : SCLeaf) : Bool :=
  c.seqNum.all (fun s => !(sn == 0) && s sn) &&
  c.uid.all (fun s => s m.uid) &&
  matchDate m.t c.since c.before &&
  c.flag.all (fun f => decide (canonicalFlag f ∈ m.flags)) &&
  c.notFlag.all (fun f => !(decide (canonicalFlag f ∈ m.flags))) &&
  !(!(c.larger == 0) && decide ((m.buf.length : Int) ≤ c.larger)) &&
  !(!(c.smaller == 0) && decide ((m.buf.length : Int) ≥ c.smaller)) &&
  matchBytes m.buf c.text &&
  (let hd := pm m.buf
   c.header.all (fun fc =>
       hasField hd.1 fc.1 &&
       (fc.2.isEmpty ||
        (headerValues hd.1 fc.1).any (fun v => containsSub (lower v) (lower fc.2)))) &&
   (if isZero c.sentSince && isZero c.sentBefore then true
    else
      match pd hd.1 with
      | Option.none => false
      | Option.some t => matchDate t c.sentSince c.sentBefore) &&
   (c.body.isEmpty || matchBytes hd.2 c.body))

mutual

/-- `(*message).search` (lines 106-194): the conjunction of all leaf
predicates, NOT children (lines 182-186) and OR pairs (lines 187-191). -/
def search (pm : Str → Header × Str) (pd : Header → Option GoTime)
    (m : Msg) (sn : Nat) : SC → Bool
  | SC.mk leaf nots ors =>
    searchLeaf pm pd m sn leaf && searchNots pm pd m sn nots && searchOrs pm pd m sn ors

/-- The NOT loop: every child must evaluate false. -/
def searchNots (pm : Str → Header × Str) (pd : Header → Option GoTime)
    (m : Msg) (sn : Nat) : List SC → Bool
  | [] => true
  | c :: rest => !(search pm pd m sn c) && searchNots pm pd m sn rest

/-- The OR loop: each pair must have a true side. -/
def searchOrs (pm : Str → Header × Str) (pd : Header → Option GoTime)
    (m : Msg) (sn : Nat) : List (SC × SC) → Bool
  | [] => true
  | (a, b) :: rest =>
    (search pm pd m sn a || search pm pd m sn b) && searchOrs pm pd m sn rest

end

/-! ## Envelope address lists -/

/-- A parsed RFC 5322 address as the external `mail.Header.AddressList`
yields it: display name and full address specification. -/
structure MailAddress where
  name : Str
  address : Str
deriving DecidableEq

/-- `imap.Address`. -/
structure Address where
  name : Str
  mailbox : Str
  host : Str
deriving DecidableEq

/-- `strings.Cut s "@"`: the parts before and after the first `@`, or
`none` when there is no `@`. -/
def cutFirst : Str → Option (Str × Str)
  | [] => Option.none
  | c :: rest =>
    if c = '@' then Option.some ([], rest)
    else
      match cutFirst rest with
      | Option.some (a, b) => Option.some (c :: a, b)
      | Option.none => Option.none

/-- `parseAddressList` (imapmemserver/message.go:243-259, identical to
imapserver/message.go:175-191), applied to the library's parsed address
list: split each address on the first `@`, dropping addresses without
one. -/
def parseAddressList (addrs : List MailAddress) : List Address :=
  match addrs with
  | [] => []
  | a :: rest =>
    match cutFirst a.address with
    | Option.some (mb, host) => ⟨a.name, mb, host⟩ :: parseAddressList rest
    | Option.none => parseAddressList rest

/-! ## Concrete criteria used by the claims -/

def emptyLeaf : SCLeaf :=
  ⟨[], [], zeroTime, zeroTime, zeroTime, zeroTime, [], [], [], [], [], 0, 0⟩

/-- The completely empty criteria tree. -/
def emptySC : SC := SC.mk emptyLeaf [] []

/-- Criteria whose only populated field is `Larger = b`. -/
def largerOnly (b : Int) : SC := SC.mk { emptyLeaf with larger := b } [] []

/-- Criteria whose only populated field is `Smaller = s`. -/
def smallerOnly (s : Int) : SC := SC.mk { emptyLeaf with smaller := s } [] []

/-- Criteria whose only populated field is the single OR pair
`(Larger = 1000, Smaller = 10)`. -/
def orCriteria : SC := SC.mk emptyLeaf [] [(largerOnly 1000, smallerOnly 10)]

/-! ## Helper lemmas -/

lemma mem_foldl_insert (l : List Str) (acc : Finset Str) (a : Str) :
    a ∈ l.foldl (fun s f => insert (canonicalFlag f) s) acc ↔
      a ∈ acc ∨ a ∈ l.map lower := by
  induction l generalizing acc with
  | nil => simp
  | cons x xs ih =>
    rw [List.foldl_cons, ih]
    simp only [Finset.mem_insert, List.map_cons, List.mem_cons, canonicalFlag]
    tauto

lemma mem_foldl_erase (l : List Str) (acc : Finset Str) (a : Str) :
    a ∈ l.foldl (fun s f => s.erase (canonicalFlag f)) acc ↔
      a ∈ acc ∧ a ∉ l.map lower := by
  induction l generalizing acc with
  | nil => simp
  | cons x xs ih =>
    rw [List.foldl_cons, ih]
    simp only [Finset.mem_erase, List.map_cons, List.mem_cons, canonicalFlag]
    tauto

lemma cutFirst_of_not_mem (s : Str) (h : '@' ∉ s) : cutFirst s = Option.none := by
  induction s with
  | nil => rfl
  | cons c rest ih =>
    simp only [List.mem_cons, not_or] at h
    have hc : ¬ c = '@' := fun he => h.1 he.symm
    simp [cutFirst, hc, ih h.2]

lemma cutFirst_append (pre post : Str) (h : '@' ∉ pre) :
    cutFirst (pre ++ '@' :: post) = Option.some (pre, post) := by
  induction pre with
  | nil => simp [cutFirst]
  | cons c cs ih =>
    simp only [List.mem_cons, not_or] at h
    have hc : ¬ c = '@' := fun he => h.1 he.symm
    simp [cutFirst, hc, ih h.2]

/-! ## Claim theorems -/

/-- C2: for every section request, the serialization step of
`ExtractBodySection` writes the header iff (the specifier is "none" and
the part path is empty) or the specifier is header-only or MIME, and
writes the body iff the specifier is "none" or text-only. -/
theorem C2_thm (item : FetchItemBodySection) :
    (writeHeaderFlag item = true ↔
      ((item.specifier = PartSpecifier.none ∧ item.part = []) ∨
       item.specifier = PartSpecifier.header ∨ item.specifier = PartSpecifier.mime))
    ∧ (writeBodyFlag item = true ↔
      (item.specifier = PartSpecifier.none ∨ item.specifier = PartSpecifier.text)) := by
  obtain ⟨p, sp, hf, hfn, pr⟩ := item
  cases sp <;> simp [writeHeaderFlag, writeBodyFlag, List.isEmpty_iff]

/-- C3: the partial-range clamp of `ExtractBodySection` on a serialized
section of length `L`: an offset past `L` yields the empty (nil) result;
`offset + size` past `L` truncates to the bytes from `offset` to `L`;
otherwise exactly `size` bytes starting at `offset` are returned (the
length is a `Nat`, hence never negative). -/
theorem C3_thm (b : Bytes) (off size : Nat) :
    (b.length < off → clampRange (Option.some (off, size)) b = Option.none)
    ∧ (off ≤ b.length → b.length < off + size →
        clampRange (Option.some (off, size)) b = Option.some (b.drop off))
    ∧ (off + size ≤ b.length →
        clampRange (Option.some (off, size)) b = Option.some ((b.drop off).take size)
        ∧ ((b.drop off).take size).length = size) := by
  refine ⟨?_, ?_, ?_⟩
  · intro h
    simp [clampRange, h]
  · intro h1 h2
    have hoff : ¬ off > b.length := by omega
    have hstop : off + size > b.length := by omega
    simp [clampRange, hoff, hstop, List.drop_take]
  · intro h
    have hoff : ¬ off > b.length := by omega
    have hstop : ¬ off + size > b.length := by omega
    refine ⟨by simp [clampRange, hoff, hstop, List.drop_take], ?_⟩
    simp [List.length_take, List.length_drop]
    omega

/-- C3 witness: the clamp at a concrete in-range offset and size. -/
theorem C3_witness :
    1 + 2 ≤ (['a', 'b', 'c'] : Bytes).length
    ∧ (clampRange (Option.some (1, 2)) ['a', 'b', 'c'] =
         Option.some (((['a', 'b', 'c'] : Bytes).drop 1).take 2)
       ∧ (((['a', 'b', 'c'] : Bytes).drop 1).take 2).length = 2) :=
  ⟨by decide, (C3_thm ['a', 'b', 'c'] 1 2).2.2 (by decide)⟩

/-- C6: STORE semantics on the flag set: "set" replaces the set with
exactly the given flags lower-cased, "add" is union with them, "delete"
is difference with them. -/
theorem C6_thm (prior : Finset Str) (fs : List Str) (a : Str) :
    (a ∈ store prior StoreOp.set fs ↔ a ∈ fs.map lower)
    ∧ (a ∈ store prior StoreOp.add fs ↔ a ∈ prior ∨ a ∈ fs.map lower)
    ∧ (a ∈ store prior StoreOp.del fs ↔ a ∈ prior ∧ a ∉ fs.map lower) := by
  refine ⟨?_, ?_, ?_⟩ <;>
    simp [store, mem_foldl_insert, mem_foldl_erase]

/-- C9: envelope address-list building splits each parsed address's
specification on the first `@` into mailbox and host, silently drops
addresses without an `@`, and maps `Alice <alice@example.com>` (parsed
as name "Alice", address "alice@example.com") to
{name="Alice", mailbox="alice", host="example.com"}. -/
theorem C9_thm (addrs : List MailAddress) (a b : MailAddress) (pre post : Str)
    (hpre : '@' ∉ pre) (ha : a.address = pre ++ '@' :: post) (hb : '@' ∉ b.address) :
    parseAddressList (a :: addrs) = ⟨a.name, pre, post⟩ :: parseAddressList addrs
    ∧ parseAddressList (b :: addrs) = parseAddressList addrs
    ∧ parseAddressList [⟨"Alice".toList, "alice@example.com".toList⟩] =
        [⟨"Alice".toList, "alice".toList, "example.com".toList⟩] := by
  refine ⟨?_, ?_, by decide⟩
  · simp [parseAddressList, ha, cutFirst_append pre post hpre]
  · simp [parseAddressList, cutFirst_of_not_mem b.address hb]

/-- C9 witness: concrete addresses with and without an `@`. -/
theorem C9_witness :
    '@' ∉ ("x".toList : Str)
    ∧ (⟨"A".toList, "x@y".toList⟩ : MailAddress).address = "x".toList ++ '@' :: "y".toList
    ∧ '@' ∉ (⟨"B".toList, "nope".toList⟩ : MailAddress).address
    ∧ (parseAddressList [⟨"A".toList, "x@y".toList⟩] =
         [⟨"A".toList, "x".toList, "y".toList⟩]
       ∧ parseAddressList [⟨"B".toList, "nope".toList⟩] = parseAddressList []
       ∧ parseAddressList [⟨"Alice".toList, "alice@example.com".toList⟩] =
           [⟨"Alice".toList, "alice".toList, "example.com".toList⟩]) :=
  ⟨by decide, by decide, by decide,
    C9_thm [] ⟨"A".toList, "x@y".toList⟩ ⟨"B".toList, "nope".toList⟩
      "x".toList "y".toList (by decide) (by decide) (by decide)⟩

lemma isZero_zeroTime : isZero zeroTime = true := by
  decide

lemma not_le_decide (x y : Int) : (!decide (x ≤ y)) = decide (y < x) := by
  rcases lt_or_le y x with hlt | hle
  · rw [decide_eq_false (by omega : ¬ x ≤ y), decide_eq_true hlt]
    rfl
  · rw [decide_eq_true hle, decide_eq_false (by omega : ¬ y < x)]
    rfl

lemma matchDate_zeroTime (t : GoTime) : matchDate t zeroTime zeroTime = true := by
  simp [matchDate, isZero_zeroTime]

/-- C5: the internal-date check of the search evaluator passes iff the
message's calendar date, re-anchored at midnight UTC, is not before a
set `since` bound and is strictly before a set `before` bound; two
internal dates with the same calendar date (regardless of time-of-day
and zone) produce the same match result. -/
theorem C5_thm (t since before : GoTime)
    (hset : isZero since = false ∨ isZero before = false) :
    (matchDate t since before = true ↔
      ((isZero since = true ∨ timeLt (dateAnchor t) since = false) ∧
       (isZero before = true ∨ timeLt (dateAnchor t) before = true)))
    ∧ (∀ t2 : GoTime, t2.year = t.year → t2.month = t.month → t2.day = t.day →
        matchDate t2 since before = matchDate t since before) := by
  constructor
  · unfold matchDate
    cases h1 : isZero since <;> cases h2 : timeLt (dateAnchor t) since <;>
      cases h3 : isZero before <;> cases h4 : timeLt (dateAnchor t) before <;>
      simp [h1, h2, h3, h4]
  · intro t2 hy hm hd
    have hanch : dateAnchor t2 = dateAnchor t := by
      simp [dateAnchor, hy, hm, hd]
    simp only [matchDate, hanch]

/-- C5 witness: a concrete since bound and a message date with nonzero
time-of-day and zone. -/
theorem C5_witness :
    (isZero ⟨2020, 5, 1, 0, 0, 0, 0, 0⟩ = false ∨ isZero zeroTime = false)
    ∧ ((matchDate ⟨2020, 5, 10, 13, 30, 0, 0, 3600⟩ ⟨2020, 5, 1, 0, 0, 0, 0, 0⟩ zeroTime = true ↔
        ((isZero ⟨2020, 5, 1, 0, 0, 0, 0, 0⟩ = true ∨
          timeLt (dateAnchor ⟨2020, 5, 10, 13, 30, 0, 0, 3600⟩) ⟨2020, 5, 1, 0, 0, 0, 0, 0⟩ = false) ∧
         (isZero zeroTime = true ∨
          timeLt (dateAnchor ⟨2020, 5, 10, 13, 30, 0, 0, 3600⟩) zeroTime = true)))
       ∧ (∀ t2 : GoTime, t2.year = (⟨2020, 5, 10, 13, 30, 0, 0, 3600⟩ : GoTime).year →
           t2.month = (⟨2020, 5, 10, 13, 30, 0, 0, 3600⟩ : GoTime).month →
           t2.day = (⟨2020, 5, 10, 13, 30, 0, 0, 3600⟩ : GoTime).day →
           matchDate t2 ⟨2020, 5, 1, 0, 0, 0, 0, 0⟩ zeroTime =
             matchDate ⟨2020, 5, 10, 13, 30, 0, 0, 3600⟩ ⟨2020, 5, 1, 0, 0, 0, 0, 0⟩ zeroTime)) :=
  ⟨Or.inl (by decide),
    C5_thm ⟨2020, 5, 10, 13, 30, 0, 0, 3600⟩ ⟨2020, 5, 1, 0, 0, 0, 0, 0⟩ zeroTime
      (Or.inl (by decide))⟩

/-- C8: a search criteria with at least one sequence-number set never
matches at sequence number 0 (unknown), whatever the sets contain. -/
theorem C8_thm (pm : Str → Header × Str) (pd : Header → Option GoTime)
    (m : Msg) (sc : SC) (h : sc.leaf.seqNum ≠ []) :
    search pm pd m 0 sc = false := by
  obtain ⟨l, nots, ors⟩ := sc
  simp only [SC.leaf] at h
  obtain ⟨s, ss, hsn⟩ : ∃ s ss, l.seqNum = s :: ss := by
    cases hsn : l.seqNum with
    | nil => exact absurd hsn h
    | cons s ss => exact ⟨s, ss, rfl⟩
  simp [search, searchLeaf, hsn]

/-- C8 witness: a concrete criteria with one (all-accepting)
sequence-number set still fails at sequence number 0. -/
theorem C8_witness :
    (SC.mk { emptyLeaf with seqNum := [fun _ => true] } [] []).leaf.seqNum ≠ []
    ∧ search (fun bs => ([], bs)) (fun _ => Option.none) ⟨1, [], zeroTime, ∅⟩ 0
        (SC.mk { emptyLeaf with seqNum := [fun _ => true] } [] []) = false :=
  ⟨List.cons_ne_nil _ _,
    C8_thm (fun bs => ([], bs)) (fun _ => Option.none) ⟨1, [], zeroTime, ∅⟩
      (SC.mk { emptyLeaf with seqNum := [fun _ => true] } [] []) (List.cons_ne_nil _ _)⟩

lemma searchLeaf_emptyLeaf (pm : Str → Header × Str) (pd : Header → Option GoTime)
    (m : Msg) (sn : Nat) : searchLeaf pm pd m sn emptyLeaf = true := by
  simp [searchLeaf, emptyLeaf, matchDate_zeroTime, matchBytes, isZero_zeroTime]

/-- C10: the completely empty criteria tree matches every message at
every sequence number; in particular size bounds of 0 impose no
constraint. -/
theorem C10_thm (pm : Str → Header × Str) (pd : Header → Option GoTime)
    (m : Msg) (sn : Nat) : search pm pd m sn emptySC = true := by
  simp [search, emptySC, searchNots, searchOrs, searchLeaf_emptyLeaf]

lemma searchLeaf_larger (pm : Str → Header × Str) (pd : Header → Option GoTime)
    (m : Msg) (sn : Nat) (b : Int) (hb : ¬ b = 0) :
    searchLeaf pm pd m sn { emptyLeaf with larger := b } =
      decide (b < (m.buf.length : Int)) := by
  have hbeq : (b == 0) = false := beq_eq_false_iff_ne.mpr hb
  simp [searchLeaf, emptyLeaf, matchDate_zeroTime, matchBytes, isZero_zeroTime, hbeq,
    not_le_decide]

lemma searchLeaf_smaller (pm : Str → Header × Str) (pd : Header → Option GoTime)
    (m : Msg) (sn : Nat) (s : Int) (hs : ¬ s = 0) :
    searchLeaf pm pd m sn { emptyLeaf with smaller := s } =
      decide ((m.buf.length : Int) < s) := by
  have hseq : (s == 0) = false := beq_eq_false_iff_ne.mpr hs
  simp [searchLeaf, emptyLeaf, matchDate_zeroTime, matchBytes, isZero_zeroTime, hseq,
    ge_iff_le, not_le_decide]

lemma search_largerOnly (pm : Str → Header × Str) (pd : Header → Option GoTime)
    (m : Msg) (sn : Nat) (b : Int) (hb : ¬ b = 0) :
    search pm pd m sn (largerOnly b) = decide (b < (m.buf.length : Int)) := by
  simp [search, largerOnly, searchNots, searchOrs, searchLeaf_larger pm pd m sn b hb]

lemma search_smallerOnly (pm : Str → Header × Str) (pd : Header → Option GoTime)
    (m : Msg) (sn : Nat) (s : Int) (hs : ¬ s = 0) :
    search pm pd m sn (smallerOnly s) = decide ((m.buf.length : Int) < s) := by
  simp [search, smallerOnly, searchNots, searchOrs, searchLeaf_smaller pm pd m sn s hs]

/-- C7: the criteria whose only populated field is the OR pair
(Larger=1000, Smaller=10) matches iff the raw size is > 1000 or < 10;
in general a set Larger bound requires size strictly greater and a set
Smaller bound size strictly less than the bound. -/
theorem C7_thm (pm : Str → Header × Str) (pd : Header → Option GoTime)
    (m : Msg) (sn : Nat) (b s : Int) (hb : b ≠ 0) (hs : s ≠ 0) :
    search pm pd m sn orCriteria =
      (decide ((1000 : Int) < (m.buf.length : Int)) || decide ((m.buf.length : Int) < 10))
    ∧ search pm pd m sn (largerOnly b) = decide (b < (m.buf.length : Int))
    ∧ search pm pd m sn (smallerOnly s) = decide ((m.buf.length : Int) < s) := by
  refine ⟨?_, search_largerOnly pm pd m sn b hb, search_smallerOnly pm pd m sn s hs⟩
  simp [search, orCriteria, largerOnly, smallerOnly, searchNots, searchOrs,
    searchLeaf_emptyLeaf,
    searchLeaf_larger pm pd m sn 1000 (by decide),
    searchLeaf_smaller pm pd m sn 10 (by decide)]

/-- C7 witness: the OR criteria evaluated on a concrete empty message
(size 0 < 10, so it matches). -/
theorem C7_witness :
    ((1000 : Int) ≠ 0) ∧ ((10 : Int) ≠ 0)
    ∧ search (fun bs => ([], bs)) (fun _ => Option.none) ⟨1, [], zeroTime, ∅⟩ 0
        orCriteria = true := by
  refine ⟨by decide, by decide, ?_⟩
  have h := (C7_thm (fun bs => ([], bs)) (fun _ => Option.none) ⟨1, [], zeroTime, ∅⟩ 0
    1000 10 (by decide) (by decide)).1
  simpa using h

lemma mediaTypeOf_no_ct (h : Header) (hf : hasField h ctKey = false) :
    mediaTypeOf h = defaultType := by
  have hfind : h.find? (fun f => lower f.key == lower ctKey) = Option.none := by
    rw [List.find?_eq_none]
    intro f hmem
    simp only [hasField, List.any_eq_false] at hf
    simpa using hf f hmem
  simp [mediaTypeOf, headerGet, hfind]

lemma hasPrefixL_mp_ne (s : Str) (hp : hasPrefixL mpPre s = true) :
    (s == msgRfc || s == msgGlobal) = false := by
  cases h1 : s == msgRfc with
  | true =>
    rw [eq_of_beq h1] at hp
    exact absurd hp (by decide)
  | false =>
    cases h2 : s == msgGlobal with
    | true =>
      rw [eq_of_beq h2] at hp
      exact absurd hp (by decide)
    | false => simp

lemma openMessagePart_multipart (h : Header) (b : Body) (pmt : Str)
    (hp : hasPrefixL mpPre (mediaTypeOf h) = true) :
    openMessagePart h b pmt = (h, b) := by
  unfold openMessagePart
  cases hf : hasField h ctKey with
  | false =>
    rw [mediaTypeOf_no_ct h hf] at hp
    exact absurd hp (by decide)
  | true =>
    have hne := hasPrefixL_mp_ne (mediaTypeOf h) hp
    simp [hf, hne]

lemma resolveLoop_zero_head (pmt : Str) (h : Header) (b : Body) (rest : List Int) :
    resolveLoop pmt h b ((0 : Int) :: rest) = Option.none := by
  simp only [resolveLoop]
  cases hmp : hasPrefixL mpPre (mediaTypeOf (openMessagePart h b pmt).1) with
  | true => simp [hmp, selectPart]
  | false => simp [hmp]

/-- C1 counterexample: on a non-multipart message (empty header, empty
body), path [1] with specifier "none" yields the body only, while path
[] yields header (its terminating blank line included) plus body, so
the two byte sequences differ. -/
theorem C1_counterexample :
    ExtractBodySection (Option.some ([], Body.simple []))
        ⟨[1], PartSpecifier.none, [], [], Option.none⟩ ≠
      ExtractBodySection (Option.some ([], Body.simple []))
        ⟨[], PartSpecifier.none, [], [], Option.none⟩ := by
  decide

/-- C1 (amended): for a non-multipart message, path [1] with specifier
"none" yields the same bytes as path [] with specifier "text" — the
body only; path [] with specifier "none" additionally writes the
header. -/
theorem C1_thm (h : Header) (b : Body) (item : FetchItemBodySection)
    (hm : hasPrefixL mpPre (mediaTypeOf h) = false)
    (hp : item.part = [1]) (hs : item.specifier = PartSpecifier.none) :
    ExtractBodySection (Option.some (h, b)) item =
      ExtractBodySection (Option.some (h, b))
        ⟨[], PartSpecifier.text, item.headerFields, item.headerFieldsNot,
          item.byteRange⟩ := by
  obtain ⟨p, sp, hf, hfn, pr⟩ := item
  simp only at hp hs
  subst hp
  subst hs
  simp [ExtractBodySection, effectivePath, resolveLoop, hm, writeHeaderFlag,
    writeBodyFlag]

/-- C1 witness: the amended equivalence at a concrete one-byte
message. -/
theorem C1_witness :
    hasPrefixL mpPre (mediaTypeOf []) = false
    ∧ (⟨[1], PartSpecifier.none, [], [], Option.none⟩ : FetchItemBodySection).part = [1]
    ∧ (⟨[1], PartSpecifier.none, [], [], Option.none⟩ : FetchItemBodySection).specifier =
        PartSpecifier.none
    ∧ ExtractBodySection (Option.some ([], Body.simple ['x']))
          ⟨[1], PartSpecifier.none, [], [], Option.none⟩ =
        ExtractBodySection (Option.some ([], Body.simple ['x']))
          ⟨[], PartSpecifier.text, [], [], Option.none⟩ :=
  ⟨by decide, rfl, rfl,
    C1_thm [] (Body.simple ['x']) ⟨[1], PartSpecifier.none, [], [], Option.none⟩
      (by decide) rfl rfl⟩

/-- C4: every resolution failure makes `ExtractBodySection` yield the
empty/absent result (nil), never partial bytes: an unreadable top-level
header; any failing of the resolution loop; part number 0 anywhere; a
part number past the number of children of a multipart part (including
a malformed boundary, modelled as fewer parseable children); and a
whole fetch whose path starts with 0. -/
theorem C4_thm (item : FetchItemBodySection) :
    ExtractBodySection Option.none item = Option.none
    ∧ (∀ h b, resolveLoop [] h b (effectivePath h item.part) = Option.none →
        ExtractBodySection (Option.some (h, b)) item = Option.none)
    ∧ (∀ pmt h b rest, resolveLoop pmt h b ((0 : Int) :: rest) = Option.none)
    ∧ (∀ pmt h children raw (n : Int) rest,
        hasPrefixL mpPre (mediaTypeOf h) = true →
        (children.length : Int) < n →
        resolveLoop pmt h (Body.multi children raw) (n :: rest) = Option.none)
    ∧ (∀ h b sp hf hfn pr rest,
        ExtractBodySection (Option.some (h, b))
          ⟨(0 : Int) :: rest, sp, hf, hfn, pr⟩ = Option.none) := by
  refine ⟨rfl, ?_, ?_, ?_, ?_⟩
  · intro h b hres
    simp [ExtractBodySection, hres]
  · intro pmt h b rest
    exact resolveLoop_zero_head pmt h b rest
  · intro pmt h children raw n rest hp hlen
    simp only [resolveLoop, openMessagePart_multipart h (Body.multi children raw) pmt hp]
    by_cases hn : n < 1
    · simp [hp, selectPart, hn, bodyParts]
    · have hnone : children[n.toNat - 1]? = Option.none := by
        apply List.getElem?_eq_none
        omega
      simp [hp, selectPart, hn, bodyParts, hnone]
  · intro h b sp hf hfn pr rest
    have hpath : effectivePath h ((0 : Int) :: rest) = (0 : Int) :: rest := by
      simp [effectivePath]
    simp [ExtractBodySection, hpath, resolveLoop_zero_head]

/-- C4 witness: a part number past the end of an empty multipart fails
to resolve and the extraction returns nil. -/
theorem C4_witness :
    resolveLoop [] [] (Body.multi [] [])
        (effectivePath []
          (⟨[2], PartSpecifier.none, [], [], Option.none⟩ : FetchItemBodySection).part) =
      Option.none
    ∧ ExtractBodySection (Option.some ([], Body.multi [] []))
        ⟨[2], PartSpecifier.none, [], [], Option.none⟩ = Option.none :=
  ⟨rfl,
    (C4_thm ⟨[2], PartSpecifier.none, [], [], Option.none⟩).2.1 [] (Body.multi [] []) rfl⟩

end GoImap
